import Mathlib

/-
Verification of the hl_gate_arb trading engine against its specification.

Shallow embedding conventions:
* Python `Decimal` values (prices, sizes, fees) are modelled as `ℚ`; the
  28-digit context rounding of `decimal` is abstracted away, exact
  arithmetic is used.  Divisions that Python `Decimal` raises on
  (division by zero, 0/0) are made explicit with `Except`.
* Python `dict` state is modelled as association lists with no duplicate
  keys; wire payloads are modelled as structures holding the fields the
  code reads.
* `async` I/O is factored out: each embedded operation takes the outcome
  of its venue SDK call (`Except sdkError response`) as an argument and
  computes what the Python code computes from it.
-/

namespace HlGateArb

/-! ### Core value records (src/src/exchanges/common/models.py) -/

/-- `PositionSide` enum. -/
inductive PositionSide
  | long
  | short
deriving DecidableEq

/-- `OrderStatus` enum (`FILLED`, `PARTIAL`, `REJECTED`). -/
inductive OrderStatus
  | filled
  | partFilled
  | rejected
deriving DecidableEq

/-- `Order` record (fill report). -/
structure Order where
  order_id : String
  coin : String
  size : ℚ
  side : PositionSide
  fill_price : ℚ
  status : OrderStatus
  fee : ℚ := 0
deriving DecidableEq

/-- `Position` record (venue-observed). `leverage` uses `Option ℤ`
(`None` possible on the Hyperliquid side). -/
structure Position where
  coin : String
  size : ℚ
  side : PositionSide
  entry_price : ℚ
  mark_price : ℚ
  unrealized_pnl : ℚ
  liquidation_price : Option ℚ
  margin_used : ℚ
  leverage : Option ℤ
deriving DecidableEq

/-- `OrderbookLevel` record. -/
structure OrderbookLevel where
  price : ℚ
  size : ℚ
deriving DecidableEq

/-- `Orderbook` record. -/
structure Orderbook where
  symbol : String
  bids : List OrderbookLevel
  asks : List OrderbookLevel
  timestamp : ℤ
deriving DecidableEq

/-! ### Arbitrage value records.

`SpreadDirection` (GATE_SHORT / HL_SHORT), `RawSpread`, `NetSpread` and
`MinSpread` are declared in a models module whose file is not in the
source tree (the checked-in `arbitrage/models.py` is an older variant).
Modelled from the spec: their fields are reconstructed from §3 of the
spec and from every call site in `spread.py`, `position_manager.py` and
`bot.py`, which fix the field names and types completely. -/

/-- `SpreadDirection` enum: which venue takes the short leg. -/
inductive SpreadDirection
  | gateShort
  | hlShort
deriving DecidableEq

/-- `RawSpread` record returned by `SpreadFinder.get_raw_spread`. -/
structure RawSpread where
  spread_pct : ℚ
  direction : SpreadDirection
  gate_price : ℚ
  hl_price : ℚ
deriving DecidableEq

/-- `NetSpread` record returned by `SpreadFinder.calculate_net_spread`. -/
structure NetSpread where
  symbol : String
  size : ℚ
  gate_short_pct : ℚ
  hl_short_pct : ℚ
  profit_usd_gate_short : ℚ
  profit_usd_hl_short : ℚ
  best_direction : SpreadDirection
  best_usd_profit : ℚ
deriving DecidableEq

/-- `MinSpread` mode parameters, fields as read in
`position_manager._check_close_conditions` and `bot.py`. -/
structure MinSpread where
  min_spread_pct : ℚ
  position_size_usd : ℚ
  target_spread_pct : ℚ
  stop_loss_pct : ℚ
  timeout_minutes : ℚ
  min_24h_volume_usd : ℚ
deriving DecidableEq

/-- Errors that Python raises out of the embedded numeric code:
`decimal` raises on any division with a zero divisor. -/
inductive CalcError
  | divisionByZero
deriving DecidableEq

/-- Errors of `estimate_fill_price`: `OrderError` when the book side is
empty, and the `decimal` 0/0 `InvalidOperation` at the final division. -/
inductive FillError
  | emptyBook
  | divisionUndefined
deriving DecidableEq

/-! ### estimate_fill_price
(src/src/exchanges/gate/client.py lines 333-365; the Hyperliquid client,
src/src/exchanges/hyperliquid/client.py lines 270-302, has the identical
body, so one embedding serves both venues). -/

/-- The slippage factor applied to the extrapolated tail:
`Decimal('1.005') if side == LONG else Decimal('0.995')`. -/
def slippage_factor (side : PositionSide) : ℚ :=
  if side = PositionSide.long then 1005/1000 else 995/1000

/-- The `for level in levels` loop of `estimate_fill_price`: walks the
levels with the running `remaining`, breaking when `remaining <= 0`.
Returns the accumulated `(total_cost, filled, remaining)`. -/
def fill_walk : List OrderbookLevel → ℚ → ℚ × ℚ × ℚ
  | [], r => (0, 0, r)
  | l :: ls, r =>
    if r ≤ 0 then (0, 0, r)
    else
      let fl := min r l.size
      let rest := fill_walk ls (r - fl)
      (fl * l.price + rest.1, fl + rest.2.1, rest.2.2)

/-- `estimate_fill_price` on the already-selected book side
(`asks` for LONG, `bids` for SHORT): raises `OrderError` when the side
is empty, walks the book, extrapolates any unfilled remainder at the
last level's price times the slippage factor, and returns
`total_cost / filled` (a 0/0 division raises in `decimal`). -/
def estimate_fill_price (levels : List OrderbookLevel) (size : ℚ)
    (side : PositionSide) : Except FillError ℚ :=
  if h : levels = [] then .error .emptyBook
  else
    let res := fill_walk levels |size|
    if 0 < res.2.2 then
      let lastLevel := levels.getLast h
      let extrapolated := lastLevel.price * slippage_factor side
      let tc := res.1 + res.2.2 * extrapolated
      let f := res.2.1 + res.2.2
      if f = 0 then .error .divisionUndefined else .ok (tc / f)
    else
      if res.2.1 = 0 then .error .divisionUndefined else .ok (res.1 / res.2.1)

/-- Specification-side walk cost: the volume-weighted cost of filling
`r` against the levels, level by level, fill `min r level.size` each. -/
def walk_cost : List OrderbookLevel → ℚ → ℚ
  | [], _ => 0
  | l :: ls, r => min r l.size * l.price + walk_cost ls (r - min r l.size)

/-- Specification-side remainder after walking the levels. -/
def walk_rem : List OrderbookLevel → ℚ → ℚ
  | [], r => r
  | l :: ls, r => walk_rem ls (r - min r l.size)

/-- Total visible depth of a book side. -/
def depth_sum (levels : List OrderbookLevel) : ℚ :=
  (levels.map (fun l => l.size)).sum

/-! ### Size conversion in calculate_net_spread
(src/src/arbitrage/spread.py lines 82-105). -/

/-- Python `int()` truncation toward zero on an exact rational. -/
def int_trunc (q : ℚ) : ℤ :=
  if 0 ≤ q then ⌊q⌋ else -⌊-q⌋

/-- The Gate contract count computed by `calculate_net_spread`:
`avg_price = (gate_price + hl_price) / 2; size_coins = size_usd /
avg_price; gate_size = int(size_coins)` (float arithmetic modelled
exactly on ℚ). -/
def gate_contracts (size_usd gate_price hl_price : ℚ) : ℤ :=
  int_trunc (size_usd / ((gate_price + hl_price) / 2))

/-! ### SpreadFinder.get_raw_spread
(src/src/arbitrage/spread.py lines 29-51).  The price-monitor lookups
`get_price(symbol)` return the per-symbol entry of the price map
(`Option ℚ`); `has_price` is the map-membership test
(src/src/exchanges/gate/price_monitor.py lines 144-153). -/

/-- `GatePriceMonitor.has_price` / `HyperliquidPriceMonitor.has_price`:
membership of the symbol in the price map, given the map lookup. -/
def has_price (lookup : Option ℚ) : Bool :=
  lookup.isSome

/-- `SpreadFinder.get_raw_spread` as a function of the two price-map
lookups.  Python's `if not gate_price or not hl_price` treats both a
missing entry (`None`) and a recorded price `0.0` as falsy; the
division by `mid_price` raises if `mid_price` is zero. -/
def get_raw_spread : Option ℚ → Option ℚ → Except CalcError (Option RawSpread)
  | some g, some h =>
    if g = 0 ∨ h = 0 then .ok none
    else
      let mid := (g + h) / 2
      if mid = 0 then .error .divisionByZero
      else
        .ok (some
          { spread_pct := |g - h| / mid * 100
            direction := if g > h then .gateShort else .hlShort
            gate_price := g
            hl_price := h })
  | _, _ => .ok none

/-! ### SpreadFinder.calculate_net_spread, fee/profit core
(src/src/arbitrage/spread.py lines 108-150).  The four estimated fill
prices and the two rounded sizes are inputs: their computation is the
parallel `_estimate_all_prices` call and the venue rounding treated
above. -/

/-- The fee application, per-direction profit/spread computation and
best-direction selection of `calculate_net_spread`.  A zero divisor in
either `profit / cost` division raises in `decimal`. -/
def net_spread_core (symbol : String) (size_usd : ℚ)
    (gate_buy gate_sell hl_buy hl_sell gate_size hl_size gate_fee hl_fee : ℚ) :
    Except CalcError NetSpread :=
  let gate_buy_fee := gate_buy * (1 + gate_fee)
  let gate_sell_fee := gate_sell * (1 - gate_fee)
  let hl_buy_fee := hl_buy * (1 + hl_fee)
  let hl_sell_fee := hl_sell * (1 - hl_fee)
  let revenue_gate_short := gate_sell_fee * gate_size
  let cost_gate_short := hl_buy_fee * hl_size
  let profit_gate_short := revenue_gate_short - cost_gate_short
  if cost_gate_short = 0 then .error .divisionByZero
  else
    let spread_gate_short := profit_gate_short / cost_gate_short * 100
    let revenue_hl_short := hl_sell_fee * hl_size
    let cost_hl_short := gate_buy_fee * gate_size
    let profit_hl_short := revenue_hl_short - cost_hl_short
    if cost_hl_short = 0 then .error .divisionByZero
    else
      let spread_hl_short := profit_hl_short / cost_hl_short * 100
      if profit_gate_short > profit_hl_short then
        .ok
          { symbol := symbol, size := size_usd
            gate_short_pct := spread_gate_short
            hl_short_pct := spread_hl_short
            profit_usd_gate_short := profit_gate_short
            profit_usd_hl_short := profit_hl_short
            best_direction := .gateShort
            best_usd_profit := profit_gate_short }
      else
        .ok
          { symbol := symbol, size := size_usd
            gate_short_pct := spread_gate_short
            hl_short_pct := spread_hl_short
            profit_usd_gate_short := profit_gate_short
            profit_usd_hl_short := profit_hl_short
            best_direction := .hlShort
            best_usd_profit := profit_hl_short }

/-- The profit recorded for a given direction in a `NetSpread`. -/
def direction_profit (ns : NetSpread) : SpreadDirection → ℚ
  | .gateShort => ns.profit_usd_gate_short
  | .hlShort => ns.profit_usd_hl_short

/-- Specification-side `NetSpread`, written from the claim's wording:
taker fees applied multiplicatively (buy × (1+fee), sell × (1−fee)),
per-direction `profit = revenue − cost` with revenue the fee-adjusted
sell price times the short-venue size and cost the fee-adjusted buy
price times the long-venue size, `spread_pct = profit/cost × 100`, and
the best direction the one with the greater profit. -/
def spec_net_spread (symbol : String) (size_usd : ℚ)
    (gate_buy gate_sell hl_buy hl_sell gate_size hl_size gate_fee hl_fee : ℚ) :
    NetSpread :=
  let profit_gs := gate_sell * (1 - gate_fee) * gate_size
                   - hl_buy * (1 + hl_fee) * hl_size
  let profit_hs := hl_sell * (1 - hl_fee) * hl_size
                   - gate_buy * (1 + gate_fee) * gate_size
  { symbol := symbol
    size := size_usd
    gate_short_pct := profit_gs / (hl_buy * (1 + hl_fee) * hl_size) * 100
    hl_short_pct := profit_hs / (gate_buy * (1 + gate_fee) * gate_size) * 100
    profit_usd_gate_short := profit_gs
    profit_usd_hl_short := profit_hs
    best_direction := if profit_hs < profit_gs then .gateShort else .hlShort
    best_usd_profit := max profit_gs profit_hs }

/-! ### Venue errors.

Both clients wrap every SDK failure in `OrderError(f"...: {reason}")`;
the SDK call outcome is passed to each embedded operation as an
`Except VenueError payload` value. -/

/-- A venue/SDK failure, carrying the venue reason text. -/
structure VenueError where
  message : String
deriving DecidableEq

/-! ### Gate adapters (src/src/exchanges/gate/adapters.py). -/

/-- Left-to-right, non-overlapping removal of every `"_USDT"`
occurrence from a character list (the semantics of Python's
`contract.replace('_USDT', '')`). -/
def strip_usdt_list : List Char → List Char
  | '_' :: 'U' :: 'S' :: 'D' :: 'T' :: rest => strip_usdt_list rest
  | c :: rest => c :: strip_usdt_list rest
  | [] => []

/-- `contract.replace('_USDT', '')`. -/
def strip_usdt (c : String) : String :=
  ⟨strip_usdt_list c.data⟩

/-- A raw Gate futures order, holding the fields `adapt_order` reads
(`id`, `contract`, `size` (signed contract count), `tkfr`,
`fill_price`, `status`). -/
structure RawGateOrder where
  id : ℤ
  contract : String
  size : ℤ
  tkfr : ℚ
  fill_price : ℚ
  status : String
deriving DecidableEq

/-- Gate `adapt_order`: fee `|size × fill_price × tkfr|`, symbol with
the `_USDT` suffix stripped, absolute size, sign-derived side, and the
status map `finished → FILLED`, `open → PARTIAL`, default `FILLED`. -/
def gate_adapt_order (raw : RawGateOrder) : Order :=
  { order_id := toString raw.id
    coin := strip_usdt raw.contract
    size := |(raw.size : ℚ)|
    side := if 0 < raw.size then .long else .short
    fill_price := raw.fill_price
    status :=
      if raw.status = "finished" then .filled
      else if raw.status = "open" then .partFilled
      else .filled
    fee := |(raw.size : ℚ) * raw.fill_price * raw.tkfr| }

/-- A raw Gate position, holding the fields `adapt_position` reads.
`leverage` is a decimal string on the wire; Python's
`safe_int` yields its integer value for integral strings and the
default 0 otherwise, modelled via the denominator test. -/
structure RawGatePosition where
  contract : String
  size : ℤ
  initial_margin : ℚ
  value : ℚ
  leverage : ℚ
  liq_price : ℚ
  entry_price : ℚ
  mark_price : ℚ
  unrealised_pnl : ℚ
deriving DecidableEq

/-- Gate `adapt_position`: `None` for a zero-size entry, otherwise a
`Position` with absolute size, sign-derived side, and `margin_used`
falling back to `value / leverage` when `initial_margin` is zero. -/
def gate_adapt_position (raw : RawGatePosition) : Option Position :=
  if raw.size = 0 then none
  else
    some
      { coin := strip_usdt raw.contract
        size := |(raw.size : ℚ)|
        side := if 0 < raw.size then .long else .short
        entry_price := raw.entry_price
        mark_price := raw.mark_price
        unrealized_pnl := raw.unrealised_pnl
        liquidation_price := if raw.liq_price ≠ 0 then some raw.liq_price else none
        margin_used :=
          if raw.initial_margin = 0 then
            if 0 < raw.leverage then raw.value / raw.leverage else raw.initial_margin
          else raw.initial_margin
        leverage := some (if raw.leverage.den = 1 then raw.leverage.num else 0) }

/-! ### Gate client operations (src/src/exchanges/gate/client.py). -/

/-- `GateClient.buy_market`: wraps an SDK exception in `OrderError`,
otherwise adapts the returned order record. -/
def gate_buy_market (sdk : Except VenueError RawGateOrder) : Except VenueError Order :=
  match sdk with
  | .error e => .error ⟨"Failed to buy market: " ++ e.message⟩
  | .ok raw => .ok (gate_adapt_order raw)

/-- `GateClient.sell_market`: as `buy_market` (the sign of the
submitted size is part of the request, not of the response handling). -/
def gate_sell_market (sdk : Except VenueError RawGateOrder) : Except VenueError Order :=
  match sdk with
  | .error e => .error ⟨"Failed to sell market: " ++ e.message⟩
  | .ok raw => .ok (gate_adapt_order raw)

/-- `GateClient.get_positions`: adapts each raw entry, keeping only the
non-`None` results (`if pos: positions.append(pos)`). -/
def gate_get_positions (raws : List RawGatePosition) : List Position :=
  raws.filterMap gate_adapt_position

/-! ### Hyperliquid adapters (src/src/exchanges/hyperliquid/adapters.py). -/

/-- A fill report inside a Hyperliquid order response
(`statuses[0]['filled']`). -/
structure HLFill where
  oid : ℤ
  totalSz : ℚ
  avgPx : ℚ
deriving DecidableEq

/-- One entry of `response.data.statuses`; `filled` is absent (or
falsy) when the order did not fill. -/
structure HLOrderStatus where
  filled : Option HLFill
deriving DecidableEq

/-- A raw Hyperliquid order response: top-level `status`, the
`response['type']` tag and `response.data.statuses`. -/
structure HLRawOrderResponse where
  status : String
  response_type : String
  statuses : List HLOrderStatus
deriving DecidableEq

/-- Hyperliquid `adapt_order`: any response whose `status` is not
`"ok"`, whose `type` is not `"order"` or whose status list is empty
becomes a `REJECTED` order with the requested size; a first status
without a fill becomes `PARTIAL`; a fill becomes a `FILLED` order with
the venue-reported total size and average price. -/
def hl_adapt_order (raw : HLRawOrderResponse) (symbol : String) (size : ℚ)
    (side : PositionSide) : Order :=
  if raw.status ≠ "ok" then
    ⟨"0", symbol, size, side, 0, .rejected, 0⟩
  else if raw.response_type ≠ "order" then
    ⟨"0", symbol, size, side, 0, .rejected, 0⟩
  else
    match raw.statuses with
    | [] => ⟨"0", symbol, size, side, 0, .rejected, 0⟩
    | st :: _ =>
      match st.filled with
      | none => ⟨"0", symbol, size, side, 0, .partFilled, 0⟩
      | some f => ⟨toString f.oid, symbol, f.totalSz, side, f.avgPx, .filled, 0⟩

/-- Specification-side view of a Hyperliquid order response: the fill
it reports, when the response is well-formed (`status == "ok"`,
`response['type'] == "order"`, non-empty status list) and its first
status carries a `filled` record; `none` otherwise. -/
def hl_fill_report (raw : HLRawOrderResponse) : Option HLFill :=
  if raw.status = "ok" ∧ raw.response_type = "order" then
    match raw.statuses with
    | [] => none
    | st :: _ => st.filled
  else none

/-- A raw Hyperliquid asset position (`item['position']`), holding the
fields `adapt_position` reads; `leverage_value` is
`safe_int(leverage['value'])` when the leverage dict is present. -/
structure RawHLPosition where
  coin : String
  szi : ℚ
  entryPx : ℚ
  unrealizedPnl : ℚ
  liquidationPx : ℚ
  marginUsed : ℚ
  leverage_value : Option ℤ
deriving DecidableEq

/-- Hyperliquid `adapt_position`: always returns a `Position` (no
zero-size filtering); size `|szi|`, side from the sign of `szi`, and
`entryPx` used for both entry and mark price. -/
def hl_adapt_position (raw : RawHLPosition) : Position :=
  { coin := raw.coin
    size := |raw.szi|
    side := if 0 < raw.szi then .long else .short
    entry_price := raw.entryPx
    mark_price := raw.entryPx
    unrealized_pnl := raw.unrealizedPnl
    liquidation_price := if raw.liquidationPx ≠ 0 then some raw.liquidationPx else none
    margin_used := raw.marginUsed
    leverage := raw.leverage_value }

/-! ### Hyperliquid client operations
(src/src/exchanges/hyperliquid/client.py). -/

/-- `HyperliquidClient.buy_market`: wraps an SDK exception in
`OrderError`, otherwise adapts with side LONG. -/
def hl_buy_market (sdk : Except VenueError HLRawOrderResponse)
    (symbol : String) (size : ℚ) : Except VenueError Order :=
  match sdk with
  | .error e => .error ⟨"Failed to buy market: " ++ e.message⟩
  | .ok raw => .ok (hl_adapt_order raw symbol size .long)

/-- `HyperliquidClient.sell_market`: as `buy_market` with side SHORT. -/
def hl_sell_market (sdk : Except VenueError HLRawOrderResponse)
    (symbol : String) (size : ℚ) : Except VenueError Order :=
  match sdk with
  | .error e => .error ⟨"Failed to sell market: " ++ e.message⟩
  | .ok raw => .ok (hl_adapt_order raw symbol size .short)

/-- `HyperliquidClient.get_positions`: adapts every raw asset position
unconditionally (`positions.append(pos)` with no filter). -/
def hl_get_positions (raws : List RawHLPosition) : List Position :=
  raws.map hl_adapt_position

/-! ### Position manager (src/src/arbitrage/position_manager.py).

The two leg submissions are concurrent awaits of the venue clients; the
embedding takes their outcomes (`Except VenueError Order`) as inputs
and computes the state transition and the follow-up market-order
request the manager issues. -/

/-- `ArbitragePosition` dataclass. -/
structure ArbPosition where
  position_id : String
  symbol : String
  gate_order : Order
  hl_order : Order
  direction : SpreadDirection
  entry_spread_pct : ℚ
  open_time : ℚ
  mode : MinSpread
deriving DecidableEq

/-- The two venues. -/
inductive Venue
  | gate
  | hl
deriving DecidableEq

/-- A market-order submission (`buy_market` / `sell_market` call). -/
inductive MarketAction
  | buyMarket
  | sellMarket
deriving DecidableEq

/-- A market-order request issued by the position manager. -/
structure MarketOrderRequest where
  venue : Venue
  action : MarketAction
  symbol : String
  size : ℚ
deriving DecidableEq

/-- `_close_single_position`: reverses a filled order — `sell_market`
for a LONG fill, `buy_market` for a SHORT fill, with the fill's size. -/
def close_single_request (venue : Venue) (symbol : String) (order : Order) :
    MarketOrderRequest :=
  { venue := venue
    symbol := symbol
    action := if order.side = .long then .sellMarket else .buyMarket
    size := order.size }

/-- Specification-side action: the market order whose side is opposite
to the given filled side. -/
def reversing_action : PositionSide → MarketAction
  | .long => .sellMarket
  | .short => .buyMarket

/-- Result of `open_position`: the updated positions map, the
compensating market-order request (if any) and the created position
(`None` on any failure). -/
structure OpenOutcome where
  positions : List (String × ArbPosition)
  comp_request : Option MarketOrderRequest
  created : Option ArbPosition
deriving DecidableEq

/-- `PositionManager.open_position` given the two leg outcomes: both
legs filled inserts the new position; exactly one leg filled issues a
compensating close on the filled venue and creates nothing; both legs
failed creates nothing. -/
def open_position (positions : List (String × ArbPosition))
    (position_id symbol : String) (direction : SpreadDirection)
    (entry_spread_pct now : ℚ) (mode : MinSpread)
    (gate_result hl_result : Except VenueError Order) : OpenOutcome :=
  match gate_result, hl_result with
  | .ok g, .ok h =>
    let pos : ArbPosition :=
      ⟨position_id, symbol, g, h, direction, entry_spread_pct, now, mode⟩
    ⟨positions ++ [(position_id, pos)], none, some pos⟩
  | .ok g, .error _ => ⟨positions, some (close_single_request .gate symbol g), none⟩
  | .error _, .ok h => ⟨positions, some (close_single_request .hl symbol h), none⟩
  | .error _, .error _ => ⟨positions, none, none⟩

/-- `self.positions.get(position_id)` on the positions map. -/
def lookup_position (positions : List (String × ArbPosition)) (pid : String) :
    Option ArbPosition :=
  (positions.find? (fun e => e.1 == pid)).map (fun e => e.2)

/-- `del self.positions[position_id]` on the positions map. -/
def erase_position (positions : List (String × ArbPosition)) (pid : String) :
    List (String × ArbPosition) :=
  positions.filter (fun e => e.1 ≠ pid)

/-- `PositionManager.close_position` given the venue outcomes of the
two reversing close legs (`close_results pid`): a missing id is a
no-op returning `None`; otherwise the position is removed regardless of
outcome, and the pair of close orders is returned only when both legs
succeeded. -/
def close_position (positions : List (String × ArbPosition)) (pid : String)
    (close_results : String → Except VenueError Order × Except VenueError Order) :
    List (String × ArbPosition) × Option (Order × Order) :=
  match lookup_position positions pid with
  | none => (positions, none)
  | some _ =>
    let res := close_results pid
    let positions' := erase_position positions pid
    match res.1, res.2 with
    | .ok g, .ok h => (positions', some (g, h))
    | _, _ => (positions', none)

/-- Close reasons of `_check_close_conditions`. -/
inductive CloseReason
  | takeProfit
  | stopLoss
  | timedOut
deriving DecidableEq

/-- `PositionManager._check_close_conditions`, with the current raw
spread (as computed by `_get_current_spread` from the two price
monitors, `None` when a price is missing) and the current wall-clock
time (seconds) as inputs. -/
def check_close_conditions (pos : ArbPosition) (current_spread : Option ℚ)
    (now : ℚ) : Bool × Option CloseReason :=
  match current_spread with
  | none => (false, none)
  | some cur =>
    if cur ≤ pos.mode.target_spread_pct then (true, some .takeProfit)
    else if pos.entry_spread_pct + pos.mode.stop_loss_pct ≤ cur then
      (true, some .stopLoss)
    else if pos.mode.timeout_minutes ≤ (now - pos.open_time) / 60 then
      (true, some .timedOut)
    else (false, none)

/-- Whether a venue call outcome is a success. -/
def call_ok {α : Type} : Except VenueError α → Bool
  | .ok _ => true
  | .error _ => false

/-- Monitor-visible state: the positions map and the number of times
the completion callback has been invoked. -/
structure MonitorState where
  positions : List (String × ArbPosition)
  callback_invocations : ℕ
deriving DecidableEq

/-- One iteration of `PositionManager.monitor_positions`: collect the
positions whose close conditions hold (on a snapshot of the map), close
them sequentially, and after each close invoke the completion callback
when the close returned a result and a callback is set
(`if result and self._on_position_closed`). -/
def monitor_iteration (st : MonitorState)
    (spread_of : String → Option ℚ) (now : ℚ)
    (close_results : String → Except VenueError Order × Except VenueError Order)
    (callback_set : Bool) : MonitorState :=
  let to_close := (st.positions.filter
      (fun e => (check_close_conditions e.2 (spread_of e.2.symbol) now).1)).map
      (fun e => e.1)
  to_close.foldl
    (fun s pid =>
      let res := close_position s.positions pid close_results
      { positions := res.1
        callback_invocations :=
          if res.2.isSome && callback_set then s.callback_invocations + 1
          else s.callback_invocations })
    st

/-! ### Gate orderbook monitor, snapshot+delta
(src/src/exchanges/gate/orderbook_monitor.py). -/

/-- One `{p, s}` entry of a WS delta (`update['b']` / `update['a']`). -/
structure DeltaLevel where
  p : ℚ
  s : ℚ
deriving DecidableEq

/-- A WS `futures.order_book_update` delta body: bid entries, ask
entries and the `t` timestamp (seconds). -/
structure BookUpdate where
  b : List DeltaLevel
  a : List DeltaLevel
  t : ℚ
deriving DecidableEq

/-- Removal of a price level (`dict.pop(price, None)`); the book side is
an association list keyed by price with no duplicate keys. -/
def remove_price (p : ℚ) (side : List OrderbookLevel) : List OrderbookLevel :=
  side.filter (fun l => l.price ≠ p)

/-- Upsert of a price level (`dict[price] = level`); only the key→value
map matters because the side is re-sorted afterwards. -/
def upsert_price (p s : ℚ) (side : List OrderbookLevel) : List OrderbookLevel :=
  ⟨p, s⟩ :: remove_price p side

/-- Processing of one delta entry: `size == 0` removes the level,
anything else upserts it. -/
def apply_delta_level (side : List OrderbookLevel) (d : DeltaLevel) :
    List OrderbookLevel :=
  if d.s = 0 then remove_price d.p side else upsert_price d.p d.s side

/-- Left-to-right processing of a delta's entries for one side. -/
def apply_levels (side : List OrderbookLevel) (ds : List DeltaLevel) :
    List OrderbookLevel :=
  ds.foldl apply_delta_level side

/-- The bid ordering (`sorted(..., reverse=True)` by price). -/
def bid_le (x y : OrderbookLevel) : Prop := y.price ≤ x.price

/-- The ask ordering (`sorted(...)` by price). -/
def ask_le (x y : OrderbookLevel) : Prop := x.price ≤ y.price

instance : DecidableRel bid_le :=
  fun x y => inferInstanceAs (Decidable (y.price ≤ x.price))

instance : DecidableRel ask_le :=
  fun x y => inferInstanceAs (Decidable (x.price ≤ y.price))

instance : IsTotal OrderbookLevel bid_le :=
  ⟨fun x y => le_total y.price x.price⟩

instance : IsTrans OrderbookLevel bid_le :=
  ⟨fun _ _ _ h1 h2 => le_trans h2 h1⟩

instance : IsTotal OrderbookLevel ask_le :=
  ⟨fun x y => le_total x.price y.price⟩

instance : IsTrans OrderbookLevel ask_le :=
  ⟨fun _ _ _ h1 h2 => le_trans h1 h2⟩

/-- `GateOrderbookMonitor._apply_update`: upsert/remove each delta
entry on the price-keyed dict of the side, then rebuild `bids` sorted
descending and `asks` sorted ascending, and refresh the timestamp
(`int(t * 1000)`).  For duplicate-free key sets the stable Python sort
and insertion sort produce the same list. -/
def apply_update (book : Orderbook) (upd : BookUpdate) : Orderbook :=
  { symbol := book.symbol
    bids := List.insertionSort bid_le (apply_levels book.bids upd.b)
    asks := List.insertionSort ask_le (apply_levels book.asks upd.a)
    timestamp := int_trunc (upd.t * 1000) }

/-- Outcome of `_handle_message` for one delta in the synced state. -/
inductive HandleOutcome
  | discarded
  | resynced
  | applied
deriving DecidableEq

/-- Synced per-symbol monitor state: current `base_id` and book. -/
structure SyncedBook where
  base_id : ℤ
  book : Orderbook
deriving DecidableEq

/-- `_handle_message` on an `update` event in the synced state, given
the delta's `[U, u]` sequence range: a gap (`U > base_id + 1`) discards
the delta and triggers one resync; a stale delta (`u < base_id + 1`) is
discarded with no state change; otherwise the delta is applied and
`base_id` becomes `u`. -/
def handle_update (st : SyncedBook) (U u : ℤ) (upd : BookUpdate) :
    SyncedBook × HandleOutcome :=
  if st.base_id + 1 < U then (st, .resynced)
  else if u < st.base_id + 1 then (st, .discarded)
  else (⟨u, apply_update st.book upd⟩, .applied)

/-- A buffered WS delta with its `[U, u]` range. -/
structure QueuedUpdate where
  U : ℤ
  u : ℤ
  upd : BookUpdate
deriving DecidableEq

/-- The buffered-queue drain of `_fetch_snapshot` after a snapshot with
sequence `snap_base` arrives.  The loop's conditions use the local
`base_id` variable, which is never reassigned, so every buffered delta
is compared against the fixed snapshot sequence `snap_base`: stale
deltas (`u < snap_base + 1`) are popped and discarded, deltas whose
range covers `snap_base + 1` are applied (only the stored
`self._base_ids[symbol]` entry, here `stored`, advances to their `u`),
and the loop stops at the first delta that neither applies nor is
stale (the whole queue is deleted afterwards either way).  Returns the
final stored base id and book. -/
def drain_queue (snap_base : ℤ) (stored : ℤ) (book : Orderbook) :
    List QueuedUpdate → ℤ × Orderbook
  | [] => (stored, book)
  | q :: qs =>
    if q.u < snap_base + 1 then drain_queue snap_base stored book qs
    else if q.U ≤ snap_base + 1 ∧ snap_base + 1 ≤ q.u then
      drain_queue snap_base q.u (apply_update book q.upd) qs
    else (stored, book)

/-- The key set of a book side. -/
def side_prices (side : List OrderbookLevel) : List ℚ :=
  side.map (fun l => l.price)

/-- The size carried by the last entry at price `p` in a delta side,
if `p` occurs at all (a Python dict applies entries left to right, so
the last occurrence wins). -/
def last_size_at (p : ℚ) : List DeltaLevel → Option ℚ
  | [] => none
  | d :: ds =>
    match last_size_at p ds with
    | some s => some s
    | none => if d.p = p then some d.s else none

end HlGateArb

namespace HlGateArb

/-! ### Lemmas about the fill walk -/

theorem depth_sum_nil : depth_sum [] = 0 := rfl

theorem depth_sum_cons (l : OrderbookLevel) (ls : List OrderbookLevel) :
    depth_sum (l :: ls) = l.size + depth_sum ls := by
  simp [depth_sum]

theorem depth_sum_nonneg {levels : List OrderbookLevel}
    (h : ∀ l ∈ levels, 0 ≤ l.size) : 0 ≤ depth_sum levels := by
  induction levels with
  | nil => simp [depth_sum]
  | cons l ls ih =>
    rw [depth_sum_cons]
    have h1 : 0 ≤ l.size := h l (List.mem_cons_self _ _)
    have h2 : 0 ≤ depth_sum ls := ih fun x hx => h x (List.mem_cons_of_mem _ hx)
    linarith

theorem walk_cost_zero {levels : List OrderbookLevel}
    (h : ∀ l ∈ levels, 0 ≤ l.size) : walk_cost levels 0 = 0 := by
  induction levels with
  | nil => rfl
  | cons l ls ih =>
    have hl : 0 ≤ l.size := h l (List.mem_cons_self _ _)
    have hmin : min (0 : ℚ) l.size = 0 := min_eq_left hl
    simp only [walk_cost, hmin]
    rw [sub_zero]
    rw [ih fun x hx => h x (List.mem_cons_of_mem _ hx)]
    ring

theorem walk_rem_zero {levels : List OrderbookLevel}
    (h : ∀ l ∈ levels, 0 ≤ l.size) : walk_rem levels 0 = 0 := by
  induction levels with
  | nil => rfl
  | cons l ls ih =>
    have hl : 0 ≤ l.size := h l (List.mem_cons_self _ _)
    have hmin : min (0 : ℚ) l.size = 0 := min_eq_left hl
    simp only [walk_rem, hmin, sub_zero]
    exact ih fun x hx => h x (List.mem_cons_of_mem _ hx)

/-- The loop of `estimate_fill_price` computes the specification walk:
cost, filled amount and remainder. -/
theorem fill_walk_eq {levels : List OrderbookLevel} {r : ℚ}
    (hr : 0 ≤ r) (h : ∀ l ∈ levels, 0 ≤ l.size) :
    fill_walk levels r = (walk_cost levels r, r - walk_rem levels r, walk_rem levels r) := by
  induction levels generalizing r with
  | nil => simp [fill_walk, walk_cost, walk_rem]
  | cons l ls ih =>
    have hl : 0 ≤ l.size := h l (List.mem_cons_self _ _)
    have hrest : ∀ x ∈ ls, 0 ≤ x.size := fun x hx => h x (List.mem_cons_of_mem _ hx)
    by_cases hr0 : r ≤ 0
    · have hreq : r = 0 := le_antisymm hr0 hr
      subst hreq
      simp only [fill_walk, le_refl, if_true]
      rw [walk_cost_zero h, walk_rem_zero h]
      norm_num
    · have hfl : min r l.size ≤ r := min_le_left _ _
      have harg : 0 ≤ r - min r l.size := by linarith
      simp only [fill_walk, hr0, if_false]
      rw [ih harg hrest]
      simp only [walk_cost, walk_rem, Prod.mk.injEq]
      refine ⟨by ring_nf, by ring, trivial⟩

/-- The remainder of the walk is `max (r - depth) 0`. -/
theorem walk_rem_eq {levels : List OrderbookLevel} {r : ℚ}
    (hr : 0 ≤ r) (h : ∀ l ∈ levels, 0 ≤ l.size) :
    walk_rem levels r = max (r - depth_sum levels) 0 := by
  induction levels generalizing r with
  | nil => simp [walk_rem, depth_sum, max_eq_left hr]
  | cons l ls ih =>
    have hl : 0 ≤ l.size := h l (List.mem_cons_self _ _)
    have hrest : ∀ x ∈ ls, 0 ≤ x.size := fun x hx => h x (List.mem_cons_of_mem _ hx)
    have hds : 0 ≤ depth_sum ls := depth_sum_nonneg hrest
    rw [walk_rem, depth_sum_cons]
    by_cases hc : r ≤ l.size
    · have hmin : min r l.size = r := min_eq_left hc
      rw [hmin, sub_self, walk_rem_zero hrest]
      have : r - (l.size + depth_sum ls) ≤ 0 := by linarith
      exact (max_eq_right this).symm
    · push_neg at hc
      have hmin : min r l.size = l.size := min_eq_right hc.le
      rw [hmin, ih (by linarith) hrest]
      congr 1
      ring

/-- Closed form of `estimate_fill_price` on a non-empty side with a
positive size. -/
theorem estimate_fill_price_eq {levels : List OrderbookLevel} {size : ℚ}
    {side : PositionSide} (hne : levels ≠ []) (hsz : 0 < size)
    (hnn : ∀ l ∈ levels, 0 ≤ l.size) :
    estimate_fill_price levels size side =
      .ok ((walk_cost levels size
            + max (size - depth_sum levels) 0
              * ((levels.getLast hne).price * slippage_factor side)) / size) := by
  have habs : |size| = size := abs_of_pos hsz
  have hM0 : (0 : ℚ) ≤ max (size - depth_sum levels) 0 := le_max_right _ _
  unfold estimate_fill_price
  rw [dif_neg hne]
  simp only [habs, fill_walk_eq hsz.le hnn, walk_rem_eq hsz.le hnn]
  set M := max (size - depth_sum levels) 0 with hMdef
  by_cases hM : 0 < M
  · rw [if_pos hM]
    have hsum : size - M + M = size := by ring
    rw [hsum, if_neg (ne_of_gt hsz)]
  · rw [if_neg hM]
    have hMz : M = 0 := le_antisymm (not_lt.1 hM) hM0
    rw [hMz, sub_zero, if_neg (ne_of_gt hsz), zero_mul, add_zero]

/-- C9: `estimate_fill_price` raises `OrderError` when the selected book
side is empty; on a non-empty side with a positive size it returns the
volume-weighted average price of walking the side level by level, where
any requested amount beyond the total visible depth is priced at the
last level's price times the ±0.5% slippage factor and included in the
average. -/
theorem C9_estimate_fill_price_vwap :
    (∀ (size : ℚ) (side : PositionSide),
        estimate_fill_price [] size side = .error .emptyBook) ∧
    (∀ (levels : List OrderbookLevel) (size : ℚ) (side : PositionSide)
        (hne : levels ≠ []), 0 < size → (∀ l ∈ levels, 0 ≤ l.size) →
        estimate_fill_price levels size side =
          .ok ((walk_cost levels size
                + max (size - depth_sum levels) 0
                  * ((levels.getLast hne).price * slippage_factor side)) / size)) := by
  constructor
  · intro size side
    rfl
  · intro levels size side hne hsz hnn
    exact estimate_fill_price_eq hne hsz hnn

/-- C9 witness: an empty ask side raises; a one-level book
`[price 100, size 3]` walked with size 5 on the LONG side yields
`(3·100 + 2·100·1.005) / 5 = 501/5`. -/
theorem C9_estimate_fill_price_vwap_witness :
    estimate_fill_price [] (5 : ℚ) PositionSide.long = .error .emptyBook ∧
    estimate_fill_price [⟨100, 3⟩] (5 : ℚ) PositionSide.long = .ok (501/5) := by
  constructor
  · exact C9_estimate_fill_price_vwap.1 5 PositionSide.long
  · have h := C9_estimate_fill_price_vwap.2 [⟨100, 3⟩] 5 PositionSide.long
      (by decide) (by norm_num) (by intro l hl; simp at hl; rw [hl]; norm_num)
    rw [h]
    norm_num [walk_cost, depth_sum, slippage_factor, List.getLast]

/-- C10: on a non-empty book side, `estimate_fill_price` with size 0
walks nothing, reaches the final division with `filled = 0` and raises
(`decimal` 0/0); the operation is total only for positive sizes.  Size 0
is reachable from `calculate_net_spread`, whose `int()` truncation of
the Gate coin quantity yields 0 whenever the per-position USD size is
below the mid-price of one contract, and the truncated count is handed
straight to `estimate_fill_price`. -/
theorem C10_zero_size_reaches_zero_division :
    (∀ (levels : List OrderbookLevel) (side : PositionSide), levels ≠ [] →
        estimate_fill_price levels 0 side = .error .divisionUndefined) ∧
    (∀ size_usd gate_price hl_price : ℚ, 0 ≤ size_usd →
        size_usd < (gate_price + hl_price) / 2 →
        gate_contracts size_usd gate_price hl_price = 0) ∧
    (∀ (levels : List OrderbookLevel) (side : PositionSide)
        (size_usd gate_price hl_price : ℚ), levels ≠ [] → 0 ≤ size_usd →
        size_usd < (gate_price + hl_price) / 2 →
        estimate_fill_price levels
            ((gate_contracts size_usd gate_price hl_price : ℤ) : ℚ) side
          = .error .divisionUndefined) := by
  have h1 : ∀ (levels : List OrderbookLevel) (side : PositionSide), levels ≠ [] →
      estimate_fill_price levels 0 side = .error .divisionUndefined := by
    intro levels side hne
    cases levels with
    | nil => exact absurd rfl hne
    | cons l ls =>
      unfold estimate_fill_price
      rw [dif_neg hne]
      simp [fill_walk]
  have h2 : ∀ size_usd gate_price hl_price : ℚ, 0 ≤ size_usd →
      size_usd < (gate_price + hl_price) / 2 →
      gate_contracts size_usd gate_price hl_price = 0 := by
    intro susd gp hp hnn hlt
    have havg : 0 < (gp + hp) / 2 := lt_of_le_of_lt hnn hlt
    have hq0 : 0 ≤ susd / ((gp + hp) / 2) := div_nonneg hnn havg.le
    have hq1 : susd / ((gp + hp) / 2) < 1 := (div_lt_one havg).2 hlt
    unfold gate_contracts int_trunc
    rw [if_pos hq0]
    exact Int.floor_eq_zero_iff.2 ⟨hq0, hq1⟩
  refine ⟨h1, h2, ?_⟩
  intro levels side susd gp hp hne hnn hlt
  rw [h2 susd gp hp hnn hlt]
  exact_mod_cast h1 levels side hne

/-- C10 witness: with $5 per position and mid prices 10 and 14 the
Gate size truncates to 0 contracts, and the estimator on the book
`[price 10, size 3]` raises the 0/0 division error. -/
theorem C10_zero_size_reaches_zero_division_witness :
    gate_contracts 5 10 14 = 0 ∧
    estimate_fill_price [⟨10, 3⟩] ((gate_contracts 5 10 14 : ℤ) : ℚ)
        PositionSide.long = .error .divisionUndefined := by
  constructor
  · exact C10_zero_size_reaches_zero_division.2.1 5 10 14 (by norm_num) (by norm_num)
  · exact C10_zero_size_reaches_zero_division.2.2 [⟨10, 3⟩] PositionSide.long
      5 10 14 (by decide) (by norm_num) (by norm_num)

/-- C5: `calculate_net_spread`'s fee/profit core refines the
specification formulas: multiplicative taker fees, per-direction
`profit = revenue − cost` and `spread_pct = profit/cost × 100` with
revenue the fee-adjusted sell price times the short-venue size and cost
the fee-adjusted buy price times the long-venue size, and the best
direction carrying the greater profit (`max`, with the recorded
best-direction profit equal to the recorded best profit). -/
theorem C5_net_spread_core_spec :
    ∀ (symbol : String)
      (size_usd gate_buy gate_sell hl_buy hl_sell gate_size hl_size gate_fee hl_fee : ℚ),
      hl_buy * (1 + hl_fee) * hl_size ≠ 0 →
      gate_buy * (1 + gate_fee) * gate_size ≠ 0 →
      net_spread_core symbol size_usd gate_buy gate_sell hl_buy hl_sell
          gate_size hl_size gate_fee hl_fee
        = .ok (spec_net_spread symbol size_usd gate_buy gate_sell hl_buy hl_sell
            gate_size hl_size gate_fee hl_fee) ∧
      direction_profit
          (spec_net_spread symbol size_usd gate_buy gate_sell hl_buy hl_sell
            gate_size hl_size gate_fee hl_fee)
          (spec_net_spread symbol size_usd gate_buy gate_sell hl_buy hl_sell
            gate_size hl_size gate_fee hl_fee).best_direction
        = (spec_net_spread symbol size_usd gate_buy gate_sell hl_buy hl_sell
            gate_size hl_size gate_fee hl_fee).best_usd_profit := by
  intro symbol size_usd gb gs hb hs gsz hsz gf hf hc1 hc2
  constructor
  · simp only [net_spread_core, spec_net_spread, if_neg hc1, if_neg hc2]
    by_cases hp : hs * (1 - hf) * hsz - gb * (1 + gf) * gsz
        < gs * (1 - gf) * gsz - hb * (1 + hf) * hsz
    · rw [if_pos hp, if_pos hp]
      simp only [Except.ok.injEq, NetSpread.mk.injEq]
      simp [max_eq_left hp.le]
    · rw [if_neg hp, if_neg hp]
      simp only [Except.ok.injEq, NetSpread.mk.injEq]
      simp [max_eq_right (not_lt.1 hp)]
  · simp only [spec_net_spread]
    by_cases hp : hs * (1 - hf) * hsz - gb * (1 + gf) * gsz
        < gs * (1 - gf) * gsz - hb * (1 + hf) * hsz
    · rw [if_pos hp]
      simp only [direction_profit]
      exact (max_eq_left hp.le).symm
    · rw [if_neg hp]
      simp only [direction_profit]
      exact (max_eq_right (not_lt.1 hp)).symm

/-- C5 witness: the spec's net-spread scenario — all four fill prices
100, both sizes 10, fees 0.0005 and 0.00025 — yields profit −0.75 in
both directions and best profit −3/4. -/
theorem C5_net_spread_core_spec_witness :
    net_spread_core "X" 1000 100 100 100 100 10 10 (5/10000) (25/100000)
      = .ok (spec_net_spread "X" 1000 100 100 100 100 10 10 (5/10000) (25/100000)) ∧
    (spec_net_spread "X" 1000 100 100 100 100 10 10 (5/10000) (25/100000)).best_usd_profit
      = -(3/4) := by
  constructor
  · exact (C5_net_spread_core_spec "X" 1000 100 100 100 100 10 10 (5/10000) (25/100000)
      (by norm_num) (by norm_num)).1
  · norm_num [spec_net_spread]

/-- C8 counterexample: a recorded price of `0.0` is falsy in Python, so
`get_raw_spread` returns `None` although both monitors do have a price
recorded for the symbol (`has_price` is true on both lookups). -/
theorem C8_counterexample_zero_price :
    has_price (some 0) = true ∧ has_price (some 100) = true ∧
    get_raw_spread (some 0) (some 100) = .ok none := by
  refine ⟨rfl, rfl, ?_⟩
  simp [get_raw_spread]

/-- C8 amended: for non-negative recorded prices, `get_raw_spread`
returns `None` exactly when either price monitor lacks the symbol or
records a price equal to zero; in all other cases it returns a
`RawSpread`. -/
theorem C8_raw_spread_none_iff :
    ∀ gp hp : Option ℚ, (∀ x ∈ gp, 0 ≤ x) → (∀ x ∈ hp, 0 ≤ x) →
      ((get_raw_spread gp hp = .ok none ↔
          gp = none ∨ gp = some 0 ∨ hp = none ∨ hp = some 0) ∧
        ((gp ≠ none ∧ gp ≠ some 0 ∧ hp ≠ none ∧ hp ≠ some 0) →
          ∃ rs, get_raw_spread gp hp = .ok (some rs))) := by
  intro gp hp hg hh
  match gp, hp with
  | none, none => simp [get_raw_spread]
  | none, some h => simp [get_raw_spread]
  | some g, none => simp [get_raw_spread]
  | some g, some h =>
    have hg0 : 0 ≤ g := hg g rfl
    have hh0 : 0 ≤ h := hh h rfl
    by_cases hz : g = 0 ∨ h = 0
    · constructor
      · simp only [get_raw_spread, if_pos hz]
        simp [hz]
      · rintro ⟨-, hgz, -, hhz⟩
        rcases hz with hz | hz
        · exact absurd (by rw [hz]) hgz
        · exact absurd (by rw [hz]) hhz
    · push_neg at hz
      have hgpos : 0 < g := lt_of_le_of_ne hg0 (Ne.symm hz.1)
      have hhpos : 0 < h := lt_of_le_of_ne hh0 (Ne.symm hz.2)
      have hmid : (g + h) / 2 ≠ 0 := by positivity
      constructor
      · simp only [get_raw_spread, if_neg (by tauto : ¬(g = 0 ∨ h = 0)),
          if_neg hmid]
        simp [hz.1, hz.2]
      · intro _
        simp only [get_raw_spread, if_neg (by tauto : ¬(g = 0 ∨ h = 0)),
          if_neg hmid]
        exact ⟨_, rfl⟩

/-- C8 witness: with prices 100 and 101 recorded on the two monitors,
the none-characterisation holds and a `RawSpread` is returned. -/
theorem C8_raw_spread_none_iff_witness :
    (get_raw_spread (some 100) (some 101) = .ok none ↔
      (some (100 : ℚ) = none ∨ some (100 : ℚ) = some 0 ∨
        some (101 : ℚ) = none ∨ some (101 : ℚ) = some 0)) ∧
    ∃ rs, get_raw_spread (some 100) (some 101) = .ok (some rs) := by
  have h := C8_raw_spread_none_iff (some 100) (some 101)
    (by intro x hx; simp at hx; subst hx; norm_num)
    (by intro x hx; simp at hx; subst hx; norm_num)
  exact ⟨h.1, h.2 ⟨by simp, by norm_num, by simp, by norm_num⟩⟩

/-- C1 counterexample: a Hyperliquid market-order call whose SDK
response reports venue status `"err"` — a rejected placement — returns
a REJECTED order record instead of raising `OrderError`. -/
theorem C1_counterexample_rejection_returned :
    hl_buy_market (.ok ⟨"err", "", []⟩) "BTC" 1
      = .ok ⟨"0", "BTC", 1, .long, 0, .rejected, 0⟩ ∧
    (⟨"0", "BTC", 1, .long, 0, .rejected, 0⟩ : Order).status ≠ .filled := by
  exact ⟨rfl, by decide⟩

/-- C1 amended: when the venue SDK call raises, `buy_market` /
`sell_market` on either client raise `OrderError` carrying the venue
reason; when the SDK returns a response, the adapted order is returned
as-is with the venue-reported fill price: Gate maps venue status
`"open"` to PARTIAL and every other status — `"finished"` as well as
any unrecognized one, via the FILLED default of the status map — to
FILLED, while Hyperliquid returns FILLED (with the venue-reported size
and average price) exactly when the response is well-formed and its
first status carries a fill, and REJECTED or PARTIAL otherwise; venue
rejections encoded in a response are returned, not raised. -/
theorem C1_market_order_results :
    (∀ e : VenueError,
        gate_buy_market (.error e) = .error ⟨"Failed to buy market: " ++ e.message⟩ ∧
        gate_sell_market (.error e) = .error ⟨"Failed to sell market: " ++ e.message⟩) ∧
    (∀ raw : RawGateOrder,
        gate_buy_market (.ok raw) = .ok (gate_adapt_order raw) ∧
        gate_sell_market (.ok raw) = .ok (gate_adapt_order raw)) ∧
    (∀ raw : RawGateOrder,
        ((gate_adapt_order raw).status = .filled ↔ raw.status ≠ "open") ∧
        ((gate_adapt_order raw).status = .partFilled ↔ raw.status = "open") ∧
        (gate_adapt_order raw).fill_price = raw.fill_price) ∧
    (∀ (e : VenueError) (sym : String) (size : ℚ),
        hl_buy_market (.error e) sym size
          = .error ⟨"Failed to buy market: " ++ e.message⟩ ∧
        hl_sell_market (.error e) sym size
          = .error ⟨"Failed to sell market: " ++ e.message⟩) ∧
    (∀ (raw : HLRawOrderResponse) (sym : String) (size : ℚ),
        hl_buy_market (.ok raw) sym size = .ok (hl_adapt_order raw sym size .long) ∧
        hl_sell_market (.ok raw) sym size = .ok (hl_adapt_order raw sym size .short)) ∧
    (∀ (raw : HLRawOrderResponse) (sym : String) (size : ℚ) (side : PositionSide),
        ((hl_adapt_order raw sym size side).status = .filled
          ↔ (hl_fill_report raw).isSome = true) ∧
        (∀ f : HLFill, hl_fill_report raw = some f →
          (hl_adapt_order raw sym size side).fill_price = f.avgPx ∧
          (hl_adapt_order raw sym size side).size = f.totalSz)) ∧
    (∀ (raw : HLRawOrderResponse) (sym : String) (size : ℚ),
        raw.status ≠ "ok" →
        hl_buy_market (.ok raw) sym size
          = .ok ⟨"0", sym, size, .long, 0, .rejected, 0⟩) := by
  refine ⟨fun e => ⟨rfl, rfl⟩, fun raw => ⟨rfl, rfl⟩, ?_, fun e sym size => ⟨rfl, rfl⟩,
    fun raw sym size => ⟨rfl, rfl⟩, ?_, ?_⟩
  · intro raw
    by_cases h1 : raw.status = "finished"
    · have h2 : raw.status ≠ "open" := by rw [h1]; decide
      simp [gate_adapt_order, h1, h2]
    · by_cases h2 : raw.status = "open"
      · simp [gate_adapt_order, h1, h2]
      · simp [gate_adapt_order, h1, h2]
  · intro raw sym size side
    by_cases hok : raw.status = "ok"
    · by_cases htype : raw.response_type = "order"
      · cases hsts : raw.statuses with
        | nil => simp [hl_adapt_order, hl_fill_report, hok, htype, hsts]
        | cons st rest =>
          cases hfill : st.filled with
          | none => simp [hl_adapt_order, hl_fill_report, hok, htype, hsts, hfill]
          | some f =>
            constructor
            · simp [hl_adapt_order, hl_fill_report, hok, htype, hsts, hfill]
            · intro f' hf'
              rw [hl_fill_report, if_pos ⟨hok, htype⟩, hsts] at hf'
              have hf2 : st.filled = some f' := hf'
              rw [hfill] at hf2
              obtain rfl := Option.some.inj hf2
              simp [hl_adapt_order, hok, htype, hsts, hfill]
      · simp [hl_adapt_order, hl_fill_report, hok, htype]
    · simp [hl_adapt_order, hl_fill_report, hok]
  · intro raw sym size h
    simp [hl_buy_market, hl_adapt_order, h]

/-- C1 witness: a finished Gate order adapts to FILLED at the venue
price; a Hyperliquid response carrying a fill adapts to FILLED with
the venue-reported size and average price. -/
theorem C1_market_order_results_witness :
    (gate_adapt_order ⟨1, "BTC_USDT", 5, 0, 100, "finished"⟩).status = .filled ∧
    (gate_adapt_order ⟨1, "BTC_USDT", 5, 0, 100, "finished"⟩).fill_price = 100 ∧
    (hl_adapt_order ⟨"ok", "order", [⟨some ⟨7, 2, 99⟩⟩]⟩ "BTC" 1 .long).status = .filled ∧
    (hl_adapt_order ⟨"ok", "order", [⟨some ⟨7, 2, 99⟩⟩]⟩ "BTC" 1 .long).fill_price = 99 := by
  have hg := C1_market_order_results.2.2.1 ⟨1, "BTC_USDT", 5, 0, 100, "finished"⟩
  have hh := C1_market_order_results.2.2.2.2.2.1
    ⟨"ok", "order", [⟨some ⟨7, 2, 99⟩⟩]⟩ "BTC" 1 .long
  exact ⟨hg.1.2 (by decide), hg.2.2,
    hh.1.2 (by decide), (hh.2 ⟨7, 2, 99⟩ rfl).1⟩

/-- C2: when exactly one leg of `open_position` fills and the other
raises, the manager issues exactly one compensating market order on the
venue whose leg filled — the opposite side to the filled leg, with the
filled order's size — no position is created and the positions map is
unchanged. -/
theorem C2_one_leg_compensation :
    (∀ (ps : List (String × ArbPosition)) (pid sym : String)
        (dir : SpreadDirection) (entry now : ℚ) (mode : MinSpread)
        (g : Order) (e : VenueError),
        open_position ps pid sym dir entry now mode (.ok g) (.error e)
          = ⟨ps, some ⟨.gate, reversing_action g.side, sym, g.size⟩, none⟩) ∧
    (∀ (ps : List (String × ArbPosition)) (pid sym : String)
        (dir : SpreadDirection) (entry now : ℚ) (mode : MinSpread)
        (h : Order) (e : VenueError),
        open_position ps pid sym dir entry now mode (.error e) (.ok h)
          = ⟨ps, some ⟨.hl, reversing_action h.side, sym, h.size⟩, none⟩) := by
  constructor
  · intro ps pid sym dir entry now mode g e
    cases hg : g.side <;>
      simp [open_position, close_single_request, reversing_action, hg]
  · intro ps pid sym dir entry now mode h e
    cases hh : h.side <;>
      simp [open_position, close_single_request, reversing_action, hh]

/-- C3 counterexample: the Hyperliquid client performs no zero-size
filtering — a venue entry with `szi = 0` yields a returned list whose
only `Position` has size 0. -/
theorem C3_counterexample_hl_zero_size :
    hl_get_positions [⟨"BTC", 0, 0, 0, 0, 0, none⟩]
      = [⟨"BTC", 0, .short, 0, 0, 0, none, 0, none⟩] ∧
    ¬ (0 : ℚ) < (⟨"BTC", 0, .short, 0, 0, 0, none, 0, none⟩ : Position).size := by
  constructor
  · norm_num [hl_get_positions, hl_adapt_position]
  · norm_num

/-- C3 amended: every `Position` returned by the Gate client's
`get_positions` has size > 0 (zero-size venue entries are filtered
out), while the Hyperliquid client adapts every venue entry without
filtering, so a zero-size venue entry appears in its result with
size 0. -/
theorem C3_get_positions_sizes :
    (∀ (raws : List RawGatePosition) (p : Position),
        p ∈ gate_get_positions raws → 0 < p.size) ∧
    (∀ raws : List RawHLPosition, (hl_get_positions raws).length = raws.length) ∧
    (∀ raw : RawHLPosition, raw.szi = 0 → (hl_adapt_position raw).size = 0) := by
  refine ⟨?_, ?_, ?_⟩
  · intro raws p hp
    obtain ⟨raw, _, hadapt⟩ := List.mem_filterMap.1 hp
    by_cases hz : raw.size = 0
    · rw [gate_adapt_position, if_pos hz] at hadapt
      exact absurd hadapt (by simp)
    · rw [gate_adapt_position, if_neg hz] at hadapt
      obtain rfl := Option.some.inj hadapt
      have : ((raw.size : ℚ)) ≠ 0 := Int.cast_ne_zero.2 hz
      simpa using abs_pos.2 this
  · intro raws
    simp [hl_get_positions]
  · intro raw h
    simp [hl_adapt_position, h]

/-- C3 witness: a Gate entry with 5 contracts adapts into the returned
list and has positive size; a Hyperliquid entry with `szi = 0` adapts
to size 0. -/
theorem C3_get_positions_sizes_witness :
    (⟨"BTC", 5, .long, 100, 100, 0, none, 1, some 10⟩ : Position)
        ∈ gate_get_positions [⟨"BTC_USDT", 5, 1, 0, 10, 0, 100, 100, 0⟩] ∧
    (0 : ℚ) < (⟨"BTC", 5, .long, 100, 100, 0, none, 1, some 10⟩ : Position).size ∧
    (hl_adapt_position ⟨"BTC", 0, 0, 0, 0, 0, none⟩).size = 0 := by
  have hmem : (⟨"BTC", 5, .long, 100, 100, 0, none, 1, some 10⟩ : Position)
      ∈ gate_get_positions [⟨"BTC_USDT", 5, 1, 0, 10, 0, 100, 100, 0⟩] := by
    decide
  exact ⟨hmem, C3_get_positions_sizes.1 _ _ hmem,
    C3_get_positions_sizes.2.2 _ rfl⟩

/-- C4: in the synced state with sequence `base_id`, a delta `[U, u]`
(with the protocol invariant `U ≤ u`) whose `u < base_id + 1` is
discarded with no state change; one whose `U > base_id + 1` is
discarded and triggers exactly one resync; any other delta is applied
and `base_id` becomes `u`.  On resync, a buffered delta whose
`u < base_id + 1` for the fresh snapshot's `base_id` is popped and
discarded by the queue drain (the drain compares every buffered delta
against the fixed snapshot sequence). -/
theorem C4_sequence_rules :
    (∀ (st : SyncedBook) (U u : ℤ) (upd : BookUpdate), U ≤ u →
        u < st.base_id + 1 → handle_update st U u upd = (st, .discarded)) ∧
    (∀ (st : SyncedBook) (U u : ℤ) (upd : BookUpdate),
        st.base_id + 1 < U → handle_update st U u upd = (st, .resynced)) ∧
    (∀ (st : SyncedBook) (U u : ℤ) (upd : BookUpdate),
        ¬ st.base_id + 1 < U → ¬ u < st.base_id + 1 →
        handle_update st U u upd = (⟨u, apply_update st.book upd⟩, .applied)) ∧
    (∀ (snap_base stored : ℤ) (book : Orderbook) (q : QueuedUpdate)
        (qs : List QueuedUpdate), q.u < snap_base + 1 →
        drain_queue snap_base stored book (q :: qs)
          = drain_queue snap_base stored book qs) := by
  refine ⟨?_, ?_, ?_, ?_⟩
  · intro st U u upd hUu hu
    rw [handle_update, if_neg (by omega), if_pos hu]
  · intro st U u upd hU
    rw [handle_update, if_pos hU]
  · intro st U u upd hU hu
    rw [handle_update, if_neg hU, if_neg hu]
  · intro snap_base stored book q qs hq
    rw [drain_queue, if_pos hq]

/-- C4 witness: the spec's gap scenario.  With `base_id = 50` a delta
`[52, 54]` resyncs (52 > 51); after a fresh snapshot with
`base_id = 54` a delta `[55, 55]` applies and `base_id` becomes 55; a
delta `[55, 55]` against `base_id = 55` is discarded; and the drain of
a buffered stale delta `[40, 41]` against `base_id = 54` pops it
without touching the book. -/
theorem C4_sequence_rules_witness :
    handle_update ⟨50, ⟨"BTC", [], [], 0⟩⟩ 52 54 ⟨[], [], 0⟩
      = (⟨50, ⟨"BTC", [], [], 0⟩⟩, .resynced) ∧
    handle_update ⟨54, ⟨"BTC", [], [], 0⟩⟩ 55 55 ⟨[], [], 0⟩
      = (⟨55, apply_update ⟨"BTC", [], [], 0⟩ ⟨[], [], 0⟩⟩, .applied) ∧
    handle_update ⟨55, ⟨"BTC", [], [], 0⟩⟩ 55 55 ⟨[], [], 0⟩
      = (⟨55, ⟨"BTC", [], [], 0⟩⟩, .discarded) ∧
    drain_queue 54 54 ⟨"BTC", [], [], 0⟩ [⟨40, 41, ⟨[], [], 0⟩⟩]
      = drain_queue 54 54 ⟨"BTC", [], [], 0⟩ [] := by
  refine ⟨?_, ?_, ?_, ?_⟩
  · exact C4_sequence_rules.2.1 ⟨50, ⟨"BTC", [], [], 0⟩⟩ 52 54 ⟨[], [], 0⟩ (by norm_num)
  · exact C4_sequence_rules.2.2.1 ⟨54, ⟨"BTC", [], [], 0⟩⟩ 55 55 ⟨[], [], 0⟩
      (by norm_num) (by norm_num)
  · exact C4_sequence_rules.1 ⟨55, ⟨"BTC", [], [], 0⟩⟩ 55 55 ⟨[], [], 0⟩
      (by norm_num) (by norm_num)
  · exact C4_sequence_rules.2.2.2 54 54 ⟨"BTC", [], [], 0⟩ ⟨40, 41, ⟨[], [], 0⟩⟩ []
      (by norm_num)

/-- `close_position` on a one-position map holding the looked-up id:
the position is removed regardless of outcome; the order pair is
returned exactly when both close legs succeeded. -/
theorem close_position_singleton (pid : String) (pos : ArbPosition)
    (cr : String → Except VenueError Order × Except VenueError Order) :
    close_position [(pid, pos)] pid cr
      = ([], match (cr pid).1, (cr pid).2 with
              | .ok g, .ok h => some (g, h)
              | _, _ => none) := by
  have hfind : List.find? (fun e => e.1 == pid) [(pid, pos)] = some (pid, pos) := by
    simp [List.find?]
  simp only [close_position, lookup_position, hfind, Option.map_some, erase_position]
  rcases h1 : (cr pid).1 with e1 | g <;> rcases h2 : (cr pid).2 with e2 | h <;>
    simp [h1, h2]

/-- One monitor iteration over a one-position map whose close
conditions hold: the position is closed (removed), and the callback
counter advances exactly when both close legs succeeded and a callback
is set. -/
theorem monitor_iteration_singleton (pid : String) (pos : ArbPosition)
    (sp : String → Option ℚ) (now : ℚ)
    (cr : String → Except VenueError Order × Except VenueError Order)
    (cbSet : Bool) (c0 : ℕ)
    (hcheck : (check_close_conditions pos (sp pos.symbol) now).1 = true) :
    monitor_iteration ⟨[(pid, pos)], c0⟩ sp now cr cbSet
      = ⟨[], if (call_ok (cr pid).1 && call_ok (cr pid).2) && cbSet
             then c0 + 1 else c0⟩ := by
  simp only [monitor_iteration]
  rw [show ([(pid, pos)].filter
      (fun e => (check_close_conditions e.2 (sp e.2.symbol) now).1)) = [(pid, pos)]
    from by simp [hcheck]]
  simp only [List.map_cons, List.map_nil, List.foldl_cons, List.foldl_nil]
  rw [close_position_singleton pid pos cr]
  rcases h1 : (cr pid).1 with e1 | g <;> rcases h2 : (cr pid).2 with e2 | h <;>
    simp [call_ok]

/-! ### Lemmas about the delta application (C6) -/

theorem mem_side_prices_remove {q p : ℚ} {side : List OrderbookLevel} :
    q ∈ side_prices (remove_price p side) ↔ q ∈ side_prices side ∧ q ≠ p := by
  unfold side_prices remove_price
  simp only [List.mem_map, List.mem_filter, decide_eq_true_eq]
  constructor
  · rintro ⟨l, ⟨hl, hlp⟩, rfl⟩
    exact ⟨⟨l, hl, rfl⟩, hlp⟩
  · rintro ⟨⟨l, hl, rfl⟩, hne⟩
    exact ⟨l, ⟨hl, hne⟩, rfl⟩

theorem nodup_remove_price {side : List OrderbookLevel}
    (h : (side_prices side).Nodup) (p : ℚ) :
    (side_prices (remove_price p side)).Nodup :=
  List.Nodup.sublist ((List.filter_sublist _).map _) h

theorem side_prices_upsert (p s : ℚ) (side : List OrderbookLevel) :
    side_prices (upsert_price p s side) = p :: side_prices (remove_price p side) :=
  rfl

theorem nodup_upsert_price {side : List OrderbookLevel}
    (h : (side_prices side).Nodup) (p s : ℚ) :
    (side_prices (upsert_price p s side)).Nodup := by
  rw [side_prices_upsert]
  refine List.Nodup.cons ?_ (nodup_remove_price h p)
  intro hmem
  exact (mem_side_prices_remove.1 hmem).2 rfl

theorem nodup_apply_delta_level {side : List OrderbookLevel}
    (h : (side_prices side).Nodup) (d : DeltaLevel) :
    (side_prices (apply_delta_level side d)).Nodup := by
  unfold apply_delta_level
  by_cases hs : d.s = 0
  · rw [if_pos hs]; exact nodup_remove_price h d.p
  · rw [if_neg hs]; exact nodup_upsert_price h d.p d.s

theorem nodup_apply_levels {side : List OrderbookLevel}
    (h : (side_prices side).Nodup) (ds : List DeltaLevel) :
    (side_prices (apply_levels side ds)).Nodup := by
  induction ds generalizing side with
  | nil => exact h
  | cons d ds ih => exact ih (nodup_apply_delta_level h d)

theorem mem_prices_apply_delta_level {p : ℚ} {side : List OrderbookLevel}
    {d : DeltaLevel} :
    p ∈ side_prices (apply_delta_level side d)
      ↔ (if d.p = p then d.s ≠ 0 else p ∈ side_prices side) := by
  unfold apply_delta_level
  by_cases hs : d.s = 0
  · rw [if_pos hs]
    rw [mem_side_prices_remove]
    by_cases hp : d.p = p
    · subst hp
      simp [hs]
    · rw [if_neg hp]
      constructor
      · exact fun h => h.1
      · exact fun h => ⟨h, fun hpd => hp hpd.symm⟩
  · rw [if_neg hs]
    rw [show side_prices (upsert_price d.p d.s side)
        = d.p :: side_prices (remove_price d.p side) from rfl]
    by_cases hp : d.p = p
    · subst hp
      simp [hs]
    · simp only [List.mem_cons, mem_side_prices_remove, if_neg hp]
      constructor
      · rintro (rfl | ⟨hmem, -⟩)
        · exact absurd rfl hp
        · exact hmem
      · intro hmem
        exact Or.inr ⟨hmem, fun h => hp (Eq.symm h)⟩

theorem mem_prices_apply_levels {p : ℚ} {ds : List DeltaLevel}
    {side : List OrderbookLevel} :
    p ∈ side_prices (apply_levels side ds)
      ↔ (match last_size_at p ds with
          | some s => s ≠ 0
          | none => p ∈ side_prices side) := by
  induction ds generalizing side with
  | nil => exact Iff.rfl
  | cons d ds ih =>
    show p ∈ side_prices (apply_levels (apply_delta_level side d) ds) ↔ _
    rw [ih]
    cases hlast : last_size_at p ds with
    | some s => simp [last_size_at, hlast]
    | none =>
      simp only [last_size_at, hlast]
      rw [mem_prices_apply_delta_level]
      by_cases hp : d.p = p
      · rw [if_pos hp, if_pos hp]
      · rw [if_neg hp, if_neg hp]

theorem not_mem_of_last_size_zero {p : ℚ} {ds : List DeltaLevel}
    {side : List OrderbookLevel} (h : last_size_at p ds = some 0) :
    p ∉ side_prices (apply_levels side ds) := by
  rw [mem_prices_apply_levels, h]
  simp

/-! ### Lemmas about the side rebuild (sorting) -/

theorem nodup_prices_sort_bids {m : List OrderbookLevel}
    (h : (side_prices m).Nodup) :
    (side_prices (List.insertionSort bid_le m)).Nodup := by
  unfold side_prices at h ⊢
  exact (((List.perm_insertionSort bid_le m).map (fun l => l.price)).nodup_iff).2 h

theorem nodup_prices_sort_asks {m : List OrderbookLevel}
    (h : (side_prices m).Nodup) :
    (side_prices (List.insertionSort ask_le m)).Nodup := by
  unfold side_prices at h ⊢
  exact (((List.perm_insertionSort ask_le m).map (fun l => l.price)).nodup_iff).2 h

theorem mem_prices_sort {r : OrderbookLevel → OrderbookLevel → Prop}
    [DecidableRel r] {p : ℚ} {m : List OrderbookLevel} :
    p ∈ side_prices (List.insertionSort r m) ↔ p ∈ side_prices m := by
  unfold side_prices
  exact ((List.perm_insertionSort r m).map (fun l => l.price)).mem_iff

theorem pairwise_strict_of_sorted_nodup {m : List OrderbookLevel}
    {r : OrderbookLevel → OrderbookLevel → Prop}
    (hs : List.Pairwise r m) (hn : (side_prices m).Nodup) :
    List.Pairwise (fun x y => r x y ∧ x.price ≠ y.price) m := by
  refine List.Pairwise.and hs ?_
  unfold side_prices at hn
  exact (List.pairwise_map).1 hn

theorem bids_strictly_decreasing {m : List OrderbookLevel}
    (hn : (side_prices m).Nodup) :
    List.Pairwise (fun x y : OrderbookLevel => y.price < x.price)
      (List.insertionSort bid_le m) := by
  have hs : List.Pairwise bid_le (List.insertionSort bid_le m) :=
    List.sorted_insertionSort bid_le m
  have hn' := nodup_prices_sort_bids hn
  exact (pairwise_strict_of_sorted_nodup hs hn').imp
    (fun h => lt_of_le_of_ne h.1 (Ne.symm h.2))

theorem asks_strictly_increasing {m : List OrderbookLevel}
    (hn : (side_prices m).Nodup) :
    List.Pairwise (fun x y : OrderbookLevel => x.price < y.price)
      (List.insertionSort ask_le m) := by
  have hs : List.Pairwise ask_le (List.insertionSort ask_le m) :=
    List.sorted_insertionSort ask_le m
  have hn' := nodup_prices_sort_asks hn
  exact (pairwise_strict_of_sorted_nodup hs hn').imp
    (fun h => lt_of_le_of_ne h.1 h.2)

/-- C6 counterexample: `_apply_update` does not enforce an uncrossed
book.  Applying a delta that inserts a bid at 102 to a book with best
ask 101 yields best bid 102 > best ask 101 — the claimed
`bids[0].price < asks[0].price` invariant fails. -/
theorem C6_counterexample_crossed_book :
    (apply_update ⟨"BTC", [⟨100, 1⟩], [⟨101, 1⟩], 0⟩ ⟨[⟨102, 5⟩], [], 0⟩).bids
      = [⟨102, 5⟩, ⟨100, 1⟩] ∧
    (apply_update ⟨"BTC", [⟨100, 1⟩], [⟨101, 1⟩], 0⟩ ⟨[⟨102, 5⟩], [], 0⟩).asks
      = [⟨101, 1⟩] ∧
    (101 : ℚ) < 102 := by
  refine ⟨by decide, by decide, by norm_num⟩

/-- C6 amended: after applying any delta to a book whose sides have
duplicate-free price sets, the bids are strictly decreasing in price
and the asks strictly increasing, and every price whose last delta
entry on a side carries size 0 is absent from that side; the delta
application enforces neither `bids[0].price < asks[0].price` nor
absence from the opposite side. -/
theorem C6_apply_update_shape :
    ∀ (book : Orderbook) (upd : BookUpdate),
      (side_prices book.bids).Nodup → (side_prices book.asks).Nodup →
      List.Pairwise (fun x y : OrderbookLevel => y.price < x.price)
          (apply_update book upd).bids ∧
      List.Pairwise (fun x y : OrderbookLevel => x.price < y.price)
          (apply_update book upd).asks ∧
      (∀ p : ℚ, last_size_at p upd.b = some 0 →
          p ∉ side_prices (apply_update book upd).bids) ∧
      (∀ p : ℚ, last_size_at p upd.a = some 0 →
          p ∉ side_prices (apply_update book upd).asks) := by
  intro book upd hb ha
  refine ⟨?_, ?_, ?_, ?_⟩
  · exact bids_strictly_decreasing (nodup_apply_levels hb upd.b)
  · exact asks_strictly_increasing (nodup_apply_levels ha upd.a)
  · intro p hp
    show p ∉ side_prices (List.insertionSort bid_le (apply_levels book.bids upd.b))
    rw [mem_prices_sort]
    exact not_mem_of_last_size_zero hp
  · intro p hp
    show p ∉ side_prices (List.insertionSort ask_le (apply_levels book.asks upd.a))
    rw [mem_prices_sort]
    exact not_mem_of_last_size_zero hp

/-- C6 witness: applying the delta `bids: [(100, 0), (99, 2)], asks:
[(101, 3)]` to the book `bids [100], asks [102]` removes the zero-size
level 100 from the bids, leaves bids strictly decreasing and asks
strictly increasing. -/
theorem C6_apply_update_shape_witness :
    List.Pairwise (fun x y : OrderbookLevel => y.price < x.price)
        (apply_update ⟨"BTC", [⟨100, 1⟩], [⟨102, 4⟩], 0⟩
          ⟨[⟨100, 0⟩, ⟨99, 2⟩], [⟨101, 3⟩], 0⟩).bids ∧
    List.Pairwise (fun x y : OrderbookLevel => x.price < y.price)
        (apply_update ⟨"BTC", [⟨100, 1⟩], [⟨102, 4⟩], 0⟩
          ⟨[⟨100, 0⟩, ⟨99, 2⟩], [⟨101, 3⟩], 0⟩).asks ∧
    (100 : ℚ) ∉ side_prices
        (apply_update ⟨"BTC", [⟨100, 1⟩], [⟨102, 4⟩], 0⟩
          ⟨[⟨100, 0⟩, ⟨99, 2⟩], [⟨101, 3⟩], 0⟩).bids := by
  have h := C6_apply_update_shape ⟨"BTC", [⟨100, 1⟩], [⟨102, 4⟩], 0⟩
    ⟨[⟨100, 0⟩, ⟨99, 2⟩], [⟨101, 3⟩], 0⟩ (by decide) (by decide)
  exact ⟨h.1, h.2.1, h.2.2.1 100 (by decide)⟩

/-- C7 counterexample: the close monitor closes a position whose gate
close leg fails — the position is removed from the map, but the
completion callback is not invoked (the code guards the callback with
`if result`), contradicting `callback invoked after each close`. -/
theorem C7_counterexample_failed_close_no_callback :
    monitor_iteration
        ⟨[("p1", ⟨"p1", "BTC", ⟨"1", "BTC", 1, .long, 100, .filled, 0⟩,
            ⟨"1", "BTC", 1, .long, 100, .filled, 0⟩, .gateShort, 0, 0,
            ⟨0, 0, 1, 1, 10, 0⟩⟩)], 0⟩
        (fun _ => some 0) 0
        (fun _ => (.error ⟨"boom"⟩, .ok ⟨"1", "BTC", 1, .long, 100, .filled, 0⟩))
        true
      = ⟨[], 0⟩ := by
  decide

/-- C7 amended: when the close monitor closes a position and both close
legs succeed, the completion callback (when set) is invoked after that
close; a close with a failed leg removes the position without invoking
the callback.  In particular, a position opened with both legs filled
and then immediately closed with both close legs succeeding leaves the
positions map empty with the callback fired exactly once. -/
theorem C7_close_invokes_callback :
    (∀ (pid : String) (pos : ArbPosition) (sp : String → Option ℚ) (now : ℚ)
        (cr : String → Except VenueError Order × Except VenueError Order)
        (c0 : ℕ) (g h : Order),
        (check_close_conditions pos (sp pos.symbol) now).1 = true →
        cr pid = (.ok g, .ok h) →
        monitor_iteration ⟨[(pid, pos)], c0⟩ sp now cr true = ⟨[], c0 + 1⟩) ∧
    (∀ (pid : String) (pos : ArbPosition) (sp : String → Option ℚ) (now : ℚ)
        (cr : String → Except VenueError Order × Except VenueError Order)
        (c0 : ℕ) (r1 r2 : Except VenueError Order),
        (check_close_conditions pos (sp pos.symbol) now).1 = true →
        cr pid = (r1, r2) → (call_ok r1 = false ∨ call_ok r2 = false) →
        monitor_iteration ⟨[(pid, pos)], c0⟩ sp now cr true = ⟨[], c0⟩) ∧
    (∀ (pid sym : String) (dir : SpreadDirection) (entry topen : ℚ)
        (mode : MinSpread) (g h : Order) (sp : String → Option ℚ) (now : ℚ)
        (cr : String → Except VenueError Order × Except VenueError Order)
        (cg ch : Order),
        (check_close_conditions ⟨pid, sym, g, h, dir, entry, topen, mode⟩
            (sp sym) now).1 = true →
        cr pid = (.ok cg, .ok ch) →
        monitor_iteration
            ⟨(open_position [] pid sym dir entry topen mode (.ok g) (.ok h)).positions,
              0⟩ sp now cr true
          = ⟨[], 1⟩) := by
  have hA : ∀ (pid : String) (pos : ArbPosition) (sp : String → Option ℚ) (now : ℚ)
      (cr : String → Except VenueError Order × Except VenueError Order)
      (c0 : ℕ) (g h : Order),
      (check_close_conditions pos (sp pos.symbol) now).1 = true →
      cr pid = (.ok g, .ok h) →
      monitor_iteration ⟨[(pid, pos)], c0⟩ sp now cr true = ⟨[], c0 + 1⟩ := by
    intro pid pos sp now cr c0 g h hcheck hcr
    rw [monitor_iteration_singleton pid pos sp now cr true c0 hcheck, hcr]
    simp [call_ok]
  refine ⟨hA, ?_, ?_⟩
  · intro pid pos sp now cr c0 r1 r2 hcheck hcr hfail
    rw [monitor_iteration_singleton pid pos sp now cr true c0 hcheck, hcr]
    rcases hfail with hf | hf <;> simp [hf]
  · intro pid sym dir entry topen mode g h sp now cr cg ch hcheck hcr
    exact hA pid ⟨pid, sym, g, h, dir, entry, topen, mode⟩ sp now cr 0 cg ch hcheck hcr

/-- C7 witness: the open-then-close round trip at concrete values —
both legs fill, the take-profit condition holds, both close legs
succeed: the map is empty and the callback fired exactly once. -/
theorem C7_close_invokes_callback_witness :
    monitor_iteration
        ⟨(open_position [] "p1" "BTC" .gateShort 0 0 ⟨0, 0, 1, 1, 10, 0⟩
            (.ok ⟨"1", "BTC", 1, .long, 100, .filled, 0⟩)
            (.ok ⟨"1", "BTC", 1, .long, 100, .filled, 0⟩)).positions, 0⟩
        (fun _ => some 0) 0
        (fun _ => (.ok ⟨"1", "BTC", 1, .long, 100, .filled, 0⟩,
          .ok ⟨"1", "BTC", 1, .long, 100, .filled, 0⟩))
        true
      = ⟨[], 1⟩ := by
  exact C7_close_invokes_callback.2.2 "p1" "BTC" .gateShort 0 0 ⟨0, 0, 1, 1, 10, 0⟩
    ⟨"1", "BTC", 1, .long, 100, .filled, 0⟩ ⟨"1", "BTC", 1, .long, 100, .filled, 0⟩
    (fun _ => some 0) 0
    (fun _ => (.ok ⟨"1", "BTC", 1, .long, 100, .filled, 0⟩,
      .ok ⟨"1", "BTC", 1, .long, 100, .filled, 0⟩))
    ⟨"1", "BTC", 1, .long, 100, .filled, 0⟩ ⟨"1", "BTC", 1, .long, 100, .filled, 0⟩
    (by decide) rfl

end HlGateArb
